import Mathlib

/-!
Verification development for the pymap IMAP server core.

The definitions below are a shallow embedding of the reference
implementation:

* `src/pymap/demo/session.py` — `Session` mailbox/message operations,
* `src/pymap/state.py` — `ConnectionState` command gating and LIST matching,
* `src/pymap/parsing/specials/statusattr.py` — `StatusAttribute`.

Components of the repository that are not shipped under `src/` (the
`pymap/demo/state.py` `SelectedMailbox`/`Message` update-queue primitives,
the `pymap/parsing/command` class hierarchy, and the demo `Mailbox` view
helpers) are modelled from the specification; each such definition carries
a doc comment starting with `Modelled from the spec:`.

Python integers are modelled as `Nat` (no arithmetic here ever overflows a
u32 in the claims considered, and Python integers are unbounded anyway);
Python `dict`/`set` are modelled as association lists / duplicate-free
lists with the same insertion-order semantics; fallible operations return
`Except`.
-/

deriving instance DecidableEq for Except

namespace Pymap

/-- An IMAP flag.  Only `\Deleted` and `\Recent` are inspected by the code
under verification; the rest are carried opaquely (`keyword n` stands for
any other flag). -/
inductive Flag
  | seen
  | answered
  | flagged
  | deleted
  | draft
  | recent
  | keyword (n : Nat)
deriving DecidableEq, Repr

/-- A message, following `pymap.demo` semantics: identity is the UID,
`contents` and `internalDate` are opaque payloads, and `flags` is the
persistent flag set attached to the message. -/
structure Message where
  uid : Nat
  contents : Nat
  internalDate : Nat
  flags : List Flag
deriving DecidableEq, Repr

/-- A pending unsolicited update queued on a selected mailbox
(spec §3: `pending: ordered list of updates
{Exists(n), Recent(n), Expunge(seq), Fetch(seq, flags)}`). -/
inductive Update
  | existsU (n : Nat)
  | recentU (n : Nat)
  | expungeU (seq : Nat)
  | fetchU (seq : Nat) (flags : List Flag)
deriving DecidableEq, Repr

/-- A `SelectedMailbox`: per-session snapshot with pending-update queue.
`sid` is the opaque session identity (spec §9 models the registry as "a
weak observer list keyed by an opaque session id").  `sessionRecent` is
the per-UID `\Recent` overlay. -/
structure SelectedMailbox where
  sid : Nat
  mboxName : String
  readonly : Bool
  sessionRecent : List Nat
  pending : List Update
  updated : Bool
deriving DecidableEq, Repr

/-- Modelled from the spec: `SelectedMailbox.add_message(seq, uid, flags)`
(`pymap/demo/state.py`, not under `src/`).  Spec §4.4: "enqueue the
corresponding update and set `updated`", where §4.3 `append` "enqueues
`Exists`+`Fetch(seq, flags)` to every session". -/
def SelectedMailbox.addMessage (s : SelectedMailbox) (seq _uid : Nat)
    (flags : List Flag) : SelectedMailbox :=
  { s with pending := s.pending ++ [.existsU seq, .fetchU seq flags],
           updated := true }

/-- Modelled from the spec: `SelectedMailbox.remove_message(seq, uid)`
(`pymap/demo/state.py`, not under `src/`).  Spec §4.4: "enqueue the
corresponding update and set `updated`" — the corresponding update for a
removal is `Expunge(seq)`. -/
def SelectedMailbox.removeMessage (s : SelectedMailbox) (seq _uid : Nat) :
    SelectedMailbox :=
  { s with pending := s.pending ++ [.expungeU seq], updated := true }

/-- Modelled from the spec: `SelectedMailbox.add_fetch(seq, flags)`
(`pymap/demo/state.py`, not under `src/`): enqueue `Fetch(seq, flags)`
and set `updated`. -/
def SelectedMailbox.addFetch (s : SelectedMailbox) (seq : Nat)
    (flags : List Flag) : SelectedMailbox :=
  { s with pending := s.pending ++ [.fetchU seq flags], updated := true }

/-- Modelled from the spec: `session_flags.add_recent(uid)`
(`pymap/demo/state.py`, not under `src/`): record a `\Recent` claim for
`uid` in the session overlay (a set, so adding twice is a no-op). -/
def SelectedMailbox.addRecent (s : SelectedMailbox) (uid : Nat) :
    SelectedMailbox :=
  if uid ∈ s.sessionRecent then s
  else { s with sessionRecent := s.sessionRecent ++ [uid] }

/-- Modelled from the spec: `Message.get_flags(selected)`
(`pymap/demo/state.py`, not under `src/`).  Spec §4.2: "union of the
session overlay for this UID and any persistent flags attached to the
message. `\Recent` appears iff the UID is claimed by `selected`." -/
def Message.getFlags (m : Message) (sel : SelectedMailbox) : List Flag :=
  if m.uid ∈ sel.sessionRecent then m.flags ++ [Flag.recent] else m.flags

/-- An IMAP `sequence-set`, abstracted to its observable behaviour: the
`uid` tag and the expansion `iter(upper_bound)` (spec §4.1; the concrete
range grammar lives in the parser collaborator, which is out of scope).
`iterFun` yields the ascending, deduplicated expansion against the given
upper bound. -/
structure SequenceSet where
  uid : Bool
  iterFun : Nat → List Nat

/-- Per-mailbox shared state (`pymap.demo` `State.mailboxes[name]`
together with the snapshot attributes of the demo `Mailbox` view):
message vector, UID allocator, validity, recent-UID set, subscription
flag.  `permanentFlags` is the view's permanent-flag list (spec §4.5). -/
structure MailboxState where
  mboxName : String
  uidValidity : Nat
  messages : List Message
  nextUid : Nat
  recent : List Nat
  subscribed : Bool
  permanentFlags : List Flag
deriving DecidableEq, Repr

/-- The view attribute `exists` (spec §4.5): number of messages. -/
def MailboxState.exists' (m : MailboxState) : Nat := m.messages.length

/-- The view attribute `highest_uid = next_uid - 1` (spec §4.5). -/
def MailboxState.highestUid (m : MailboxState) : Nat := m.nextUid - 1

/-- The view's `uid_to_idx` mapping (spec §4.5): index of the message
with the given UID. -/
def MailboxState.uidToIdx (m : MailboxState) (uid : Nat) : Option Nat :=
  m.messages.findIdx? (fun msg => msg.uid = uid)

/-- `Session._increment_next_uid` (`session.py:147-151`): return the
current `next_uid` and increment it. -/
def incrementNextUid (m : MailboxState) : Nat × MailboxState :=
  (m.nextUid, { m with nextUid := m.nextUid + 1 })

/-- Python `set.add` on a set modelled as a duplicate-free list. -/
def addToSet (r : List Nat) (u : Nat) : List Nat :=
  if u ∈ r then r else r ++ [u]

/-- `Session._iter_messages` (`session.py:58-72`): expand a sequence set
against the mailbox snapshot into `(seq, message)` pairs. -/
def iterMessages (m : MailboxState) (seqs : SequenceSet) :
    List (Nat × Message) :=
  if m.messages = [] then []
  else if seqs.uid then
    (seqs.iterFun m.highestUid).filterMap (fun u =>
      (m.uidToIdx u).bind (fun idx =>
        (m.messages.get? idx).map (fun msg => (idx + 1, msg))))
  else
    (seqs.iterFun m.exists').filterMap (fun s =>
      (m.messages.get? (s - 1)).map (fun msg => (s, msg)))

/-- One `APPEND` payload: opaque contents, the supplied flag set, and the
internal-date timestamp (`pymap.message.AppendMessage`). -/
structure AppendMessage where
  message : Nat
  flagSet : List Flag
  whenDate : Nat
deriving DecidableEq, Repr

/-- The loop body of `Session.append_messages` (`session.py:153-176`),
written as structural recursion over the payload list.  Per message: a
UID is allocated via `_increment_next_uid`, the message (with supplied
flags ∩ permanent flags) is appended, and then either every registered
session is notified (`add_message` + `updated.set()`) or — when no
session is registered — the UID is added to the mailbox's recent set.
Returns the final mailbox state, the final session registry, and the
allocated UIDs in order. -/
def appendMessagesAux (mbx : MailboxState) (sessions : List SelectedMailbox) :
    List AppendMessage → MailboxState × List SelectedMailbox × List Nat
  | [] => (mbx, sessions, [])
  | am :: rest =>
    let alloc := incrementNextUid mbx
    let msgUid := alloc.1
    let msg : Message := { uid := msgUid, contents := am.message,
                           internalDate := am.whenDate,
                           flags := am.flagSet.filter
                             (fun f => f ∈ alloc.2.permanentFlags) }
    let mbx2 := { alloc.2 with messages := alloc.2.messages ++ [msg] }
    let msgSeq := mbx2.messages.length
    if sessions.isEmpty then
      let mbx3 := { mbx2 with recent := addToSet mbx2.recent msgUid }
      let out := appendMessagesAux mbx3 sessions rest
      (out.1, out.2.1, msgUid :: out.2.2)
    else
      let sessions2 := sessions.map
        (fun s => s.addMessage msgSeq msgUid am.flagSet)
      let out := appendMessagesAux mbx2 sessions2 rest
      (out.1, out.2.1, msgUid :: out.2.2)

/-- `Session.append_messages` (`session.py:153-176`): run the append loop
and return `AppendUid(uid_validity, msg_uids)` together with the final
mailbox state and session registry. -/
def appendMessages (mbx : MailboxState) (sessions : List SelectedMailbox)
    (msgs : List AppendMessage) :
    (Nat × List Nat) × MailboxState × List SelectedMailbox :=
  let out := appendMessagesAux mbx sessions msgs
  ((mbx.uidValidity, out.2.2), out.1, out.2.1)

/-- Python `dict` insertion keyed by `Nat` (`expunged[msg_idx + 1] = uid`):
replace an existing binding in place, otherwise append. -/
def dictInsertNat (exp : List (Nat × Nat)) (k v : Nat) : List (Nat × Nat) :=
  if (exp.lookup k).isSome then
    exp.map (fun p => if p.1 = k then (k, v) else p)
  else exp ++ [(k, v)]

/-- The removal loop of `Session.expunge_mailbox` (`session.py:230-234`):
walk the candidate indices (already ordered as in the source, i.e.
descending), look each up in the pre-loop snapshot, and for messages
carrying `\Deleted` in the selection's view delete the live list entry at
that index and record `seq ↦ uid` in the `expunged` dict. -/
def expungeLoop (snapshot : List Message) (sel : SelectedMailbox) :
    List Nat → List Message → List (Nat × Nat) →
    List Message × List (Nat × Nat)
  | [], live, exp => (live, exp)
  | idx :: rest, live, exp =>
    match snapshot.get? idx with
    | some msg =>
      if Flag.deleted ∈ msg.getFlags sel then
        expungeLoop snapshot sel rest (live.eraseIdx idx)
          (dictInsertNat exp (idx + 1) msg.uid)
      else expungeLoop snapshot sel rest live exp
    | none => expungeLoop snapshot sel rest live exp

/-- Insertion into a list of `(seq, uid)` pairs ordered by ascending
`seq` (the behaviour of `sorted(expunged.items(), key=lambda t: t[0])` at
`session.py:237`, whose default sort order is ascending). -/
def insertBySeq (p : Nat × Nat) : List (Nat × Nat) → List (Nat × Nat)
  | [] => [p]
  | q :: rest => if p.1 ≤ q.1 then p :: q :: rest else q :: insertBySeq p rest

/-- `sorted(expunged.items(), key=lambda t: t[0])` (`session.py:237`):
sort the expunged `(seq, uid)` pairs by ascending sequence number. -/
def sortBySeq (l : List (Nat × Nat)) : List (Nat × Nat) :=
  l.foldr insertBySeq []

/-- `Session.expunge_mailbox` (`session.py:217-242`).  Candidate indices
are all indices in reverse order (plain `EXPUNGE`) or the reversed
uid-set expansion (`UID EXPUNGE`); the removal loop deletes `\Deleted`
messages; if anything was expunged, every registered session receives
`remove_message(seq, uid)` for each expunged pair in the sorted order and
has `updated` set. -/
def expungeMailbox (mbx : MailboxState) (sel : SelectedMailbox)
    (sessions : List SelectedMailbox) (uidSet : Option SequenceSet) :
    MailboxState × List SelectedMailbox :=
  let idxs : List Nat :=
    match uidSet with
    | none => (List.range mbx.exists').reverse
    | some s => ((s.iterFun mbx.highestUid).filterMap mbx.uidToIdx).reverse
  let out := expungeLoop mbx.messages sel idxs mbx.messages []
  let mbx2 := { mbx with messages := out.1 }
  if out.2.isEmpty then (mbx2, sessions)
  else
    let sortedExpunged := sortBySeq out.2
    (mbx2, sessions.map (fun s =>
      { sortedExpunged.foldl
          (fun s2 p => s2.removeMessage p.1 p.2) s with updated := true }))

inductive FlagOp
  | replace
  | add
  | remove
deriving DecidableEq, Repr

/-- Modelled from the spec: `Mailbox.update_flags(selected, msg, flags,
op)` (`pymap/demo/mailbox.py`, not under `src/`).  Spec §4.6: "applies
the operation to persistent flags ∩ permanent_flags" — `REPLACE` installs
`flags ∩ permanent_flags`, `ADD` unions it in, `REMOVE` subtracts the
given flags.  Returns the message's new persistent flag set. -/
def applyFlagOp (perm : List Flag) (old : List Flag) (flagSet : List Flag) :
    FlagOp → List Flag
  | .replace => flagSet.filter (fun f => f ∈ perm)
  | .add => old ++ (flagSet.filter (fun f => f ∈ perm ∧ f ∉ old))
  | .remove => old.filter (fun f => f ∉ flagSet)

/-- The copy loop of `Session.copy_messages` (`session.py:253-263`):
for each source `(seq, msg)` pair, allocate a destination UID, duplicate
contents and internal date, install the source's session-view flags via
`FlagOp.REPLACE`, add the new UID to the destination's recent set, and
append the message.  Returns the final destination state, the
`(dest_seq, dest_msg)` results, and the source UIDs, each in order. -/
def copyLoop (sel : SelectedMailbox) (dest : MailboxState) :
    List (Nat × Message) →
    MailboxState × List (Nat × Message) × List Nat
  | [] => (dest, [], [])
  | p :: rest =>
    let alloc := incrementNextUid dest
    let destUid := alloc.1
    let destFlags := p.2.getFlags sel
    let destMsg : Message := { uid := destUid, contents := p.2.contents,
                               internalDate := p.2.internalDate,
                               flags := applyFlagOp alloc.2.permanentFlags []
                                 destFlags .replace }
    let dest2 := { alloc.2 with recent := addToSet alloc.2.recent destUid,
                                messages := alloc.2.messages ++ [destMsg] }
    let destSeq := dest2.messages.length
    let out := copyLoop sel dest2 rest
    (out.1, (destSeq, destMsg) :: out.2.1, p.2.uid :: out.2.2)

/-- The per-session body of the fan-out loop of `Session.copy_messages`
(`session.py:265-270`): for each copied `(seq, msg)` result, if the
message's UID is still in the destination's recent set the session claims
`\Recent` for it and the UID is removed from the recent set; then the
session is enqueued `Fetch(seq, msg.get_flags(session))`. -/
def claimLoop (recent : List Nat) (s : SelectedMailbox) :
    List (Nat × Message) → List Nat × SelectedMailbox
  | [] => (recent, s)
  | r :: rest =>
    let step :=
      if r.2.uid ∈ recent then
        (recent.erase r.2.uid, s.addRecent r.2.uid)
      else (recent, s)
    let msgFlags := r.2.getFlags step.2
    claimLoop step.1 (step.2.addFetch r.1 msgFlags) rest

/-- The fan-out loop of `Session.copy_messages` (`session.py:264-271`):
run `claimLoop` for each session registered on the destination, threading
the destination's recent set through, and set each session's `updated`
signal. -/
def fanoutLoop (results : List (Nat × Message)) :
    List Nat → List SelectedMailbox → List Nat × List SelectedMailbox
  | recent, [] => (recent, [])
  | recent, s :: rest =>
    let step := claimLoop recent s results
    let out := fanoutLoop results step.1 rest
    (out.1, { step.2 with updated := true } :: out.2)

/-- `Session.copy_messages` (`session.py:244-276`): expand the sequence
set against the source snapshot, run the copy loop into the destination,
fan out to the destination's registered sessions, and return
`CopyUid(dest.uid_validity, source_uids, dest_uids)` when both UID lists
are non-empty (`None` otherwise) together with the final destination
state and destination session registry. -/
def copyMessages (src : MailboxState) (sel : SelectedMailbox)
    (seqs : SequenceSet) (dest : MailboxState)
    (destSessions : List SelectedMailbox) :
    Option (Nat × List Nat × List Nat) × MailboxState ×
      List SelectedMailbox :=
  let pairs := iterMessages src seqs
  let loop := copyLoop sel dest pairs
  let fan := fanoutLoop loop.2.1 loop.1.recent destSessions
  let dest2 := { loop.1 with recent := fan.1 }
  let sourceUids := loop.2.2
  let destUids := loop.2.1.map (fun r => r.2.uid)
  let copyUid : Option (Nat × List Nat × List Nat) :=
    if sourceUids.isEmpty ∨ destUids.isEmpty then none
    else some (dest.uidValidity, sourceUids, destUids)
  (copyUid, dest2, fan.2)

/-- The loop body of `Session.update_flags` (`session.py:278-292`): for
each `(seq, msg)` pair the new persistent flag set is computed via the
mailbox's `update_flags`, the stored message is updated in place, and
every registered session other than the caller's selection is enqueued
`Fetch(seq, new_flags)` with its `updated` signal set.  (The source's
`session != selected` comparison is session identity; following spec §9,
identity is the opaque `sid`.) -/
def updateFlagsAux (perm : List Flag) (flagSet : List Flag) (mode : FlagOp)
    (sel : SelectedMailbox) :
    MailboxState → List SelectedMailbox → List (Nat × Message) →
    MailboxState × List SelectedMailbox × List (Nat × Message)
  | mbx, sessions, [] => (mbx, sessions, [])
  | mbx, sessions, p :: rest =>
    let newFlags := applyFlagOp perm p.2.flags flagSet mode
    let msg2 := { p.2 with flags := newFlags }
    let newMessages := mbx.messages.map
      (fun mm => if mm.uid = p.2.uid then msg2 else mm)
    let mbx2 := { mbx with messages := newMessages }
    let sessions2 := sessions.map (fun s =>
      if s.sid = sel.sid then s else s.addFetch p.1 newFlags)
    let out := updateFlagsAux perm flagSet mode sel mbx2 sessions2 rest
    (out.1, out.2.1, (p.1, msg2) :: out.2.2)

/-- `Session.update_flags` (`session.py:278-292`): expand the sequence
set against the snapshot and run the store loop. -/
def updateFlags (mbx : MailboxState) (sel : SelectedMailbox)
    (sessions : List SelectedMailbox) (seqs : SequenceSet)
    (flagSet : List Flag) (mode : FlagOp) :
    MailboxState × List SelectedMailbox × List (Nat × Message) :=
  updateFlagsAux mbx.permanentFlags flagSet mode sel mbx sessions
    (iterMessages mbx seqs)

/-- Modelled from the spec: the command classes of
`pymap.parsing.command` (not under `src/`).  Spec §4.7 lists four
disjoint classes by enumerating their commands: `NonAuth` (LOGIN,
AUTHENTICATE), `Auth` (CREATE, …, STATUS, APPEND, SELECT, EXAMINE),
`Select` (CHECK, CLOSE, EXPUNGE, FETCH, STORE, SEARCH, COPY,
UID-variants) and `Any` (CAPABILITY, NOOP, LOGOUT).  Note that the
SELECT and EXAMINE commands themselves belong to the `Auth` class
(spec §8 scenario 4: a fresh connection's `SELECT` is answered
`BAD SELECT: Must authenticate first.`). -/
inductive CommandClass
  | nonAuth
  | auth
  | select
  | anyCmd
deriving DecidableEq, Repr

/-- A parsed command as consumed by `ConnectionState.do_command`: tag,
command name, and its class. -/
structure Command where
  tag : String
  command : String
  cls : CommandClass
deriving DecidableEq, Repr

/-- `isinstance(cmd, CommandNonAuth)`. -/
def Command.isNonAuth (c : Command) : Bool := c.cls = CommandClass.nonAuth

/-- `isinstance(cmd, CommandAuth)`: true exactly for `Auth`-class
commands (the spec's four classes are disjoint). -/
def Command.isAuth (c : Command) : Bool := c.cls = CommandClass.auth

/-- `isinstance(cmd, CommandSelect)`. -/
def Command.isSelect (c : Command) : Bool := c.cls = CommandClass.select

/-- The outcome of the gating prefix of `ConnectionState.do_command`
(`state.py:342-362`): either a tagged `BAD` response (handler never
invoked) or dispatch to the handler named after the command. -/
inductive DoCommandResult
  | bad (tag text : String)
  | dispatched (cmdName : String)
deriving DecidableEq, Repr

/-- The gating prefix of `ConnectionState.do_command` (`state.py:344-352`),
with the connection state abstracted to whether a session is present
(`self.session`) and whether a mailbox is selected (`self.selected`). -/
def doCommandGate (hasSession hasSelected : Bool) (cmd : Command) :
    DoCommandResult :=
  if hasSession && cmd.isNonAuth then
    .bad cmd.tag (cmd.command ++ ": Already authenticated.")
  else if !hasSession && cmd.isAuth then
    .bad cmd.tag (cmd.command ++ ": Must authenticate first.")
  else if !hasSelected && cmd.isSelect then
    .bad cmd.tag (cmd.command ++ ": Must select a mailbox first.")
  else .dispatched cmd.command

/-- The process-wide mailbox registry `State.mailboxes`: a Python dict
modelled as an insertion-ordered association list. -/
abbrev Mailboxes := List (String × MailboxState)

/-- `name in State.mailboxes`. -/
def mailboxesContain (mbs : Mailboxes) (nm : String) : Bool :=
  (mbs.lookup nm).isSome

/-- Python dict assignment `State.mailboxes[k] = v`: replace the binding
in place when the key exists, append otherwise. -/
def dictSet (mbs : Mailboxes) (k : String) (v : MailboxState) : Mailboxes :=
  if (mbs.lookup k).isSome then
    mbs.map (fun p => if p.1 = k then (k, v) else p)
  else mbs ++ [(k, v)]

/-- Python dict deletion `del State.mailboxes[k]`. -/
def dictDel (mbs : Mailboxes) (k : String) : Mailboxes :=
  mbs.filter (fun p => p.1 ≠ k)

/-- The mailbox-level error taxonomy (spec §7) raised by the `Session`
mailbox-lifecycle operations. -/
inductive MailboxError
  | mailboxNotFound (nm : String)
  | mailboxConflict (nm : String)
  | mailboxHasChildren (nm : String)
deriving DecidableEq, Repr

/-- `Session.delete_mailbox` (`session.py:110-118`): raise
`MailboxNotFound` when the name is absent, otherwise delete the entry
from the registry. -/
def deleteMailbox (mbs : Mailboxes) (nm : String) :
    Except MailboxError Mailboxes :=
  if mailboxesContain mbs nm then .ok (dictDel mbs nm)
  else .error (.mailboxNotFound nm)

/-- `Session.rename_mailbox` (`session.py:120-129`): raise
`MailboxConflict` when the target exists, `MailboxNotFound` when the
source is absent; otherwise re-bind the mailbox state under the new name
and delete the old binding. -/
def renameMailbox (mbs : Mailboxes) (beforeName afterName : String) :
    Except MailboxError Mailboxes :=
  if mailboxesContain mbs afterName then .error (.mailboxConflict afterName)
  else if !mailboxesContain mbs beforeName then
    .error (.mailboxNotFound beforeName)
  else
    match mbs.lookup beforeName with
    | some m => .ok (dictDel (dictSet mbs afterName m) beforeName)
    | none => .error (.mailboxNotFound beforeName)

/-- `ConnectionState._mailbox_matches` (`state.py:221-222`): the LIST
pattern filter of the reference implementation returns `True`
unconditionally. -/
def mailboxMatches (_nm _sep _refName _filterPat : String) : Bool := true

/-- The inclusion filter of `ConnectionState.do_list`
(`state.py:224-233`): the names that make it into the `LIST` response
are exactly those accepted by `_mailbox_matches`. -/
def doListNames (names : List String) (sep refName filterPat : String) :
    List String :=
  names.filter (fun nm => mailboxMatches nm sep refName filterPat)

/-- Modelled from the spec: IMAP wildcard matching for LIST/LSUB
(spec §4.6: "Pattern matching against ref/filter uses IMAP wildcards `*`
and `%` (`%` does not cross the hierarchy separator)").  This is the
spec-side definition used to compare against the source's
`_mailbox_matches`; `fuel` bounds the recursion and
`mailboxMatchesSpec` supplies enough of it that the bound is never hit
(every recursive call shrinks `|pattern| + |cs|`). -/
def wildMatchFuel (sep : Char) : Nat → List Char → List Char → Bool
  | 0, _, _ => false
  | _ + 1, [], cs => cs.isEmpty
  | fuel + 1, p :: ps, cs =>
    if p = '*' then
      wildMatchFuel sep fuel ps cs ||
        (match cs with
         | [] => false
         | _ :: cs2 => wildMatchFuel sep fuel (p :: ps) cs2)
    else if p = '%' then
      wildMatchFuel sep fuel ps cs ||
        (match cs with
         | [] => false
         | c :: cs2 =>
           !(c == sep) && wildMatchFuel sep fuel (p :: ps) cs2)
    else
      match cs with
      | [] => false
      | c :: cs2 => (p == c) && wildMatchFuel sep fuel ps cs2

/-- Modelled from the spec: whether the mailbox name matches the LIST
filter pattern under IMAP wildcard semantics (see `wildMatchFuel`). -/
def mailboxMatchesSpec (sep : Char) (pat nm : String) : Bool :=
  wildMatchFuel sep (pat.length + nm.length + 1) pat.data nm.data

/-- `bytes.upper()` on a single byte-as-character: ASCII `a`-`z` map to
`A`-`Z`, everything else is unchanged (matching Python `bytes.upper`). -/
def byteUpper (c : Char) : Char :=
  if 'a' ≤ c ∧ c ≤ 'z' then Char.ofNat (c.toNat - 32) else c

/-- `status.upper()` over the whole atom. -/
def bytesUpper (s : String) : String := String.mk (s.data.map byteUpper)

/-- `StatusAttribute.valid_statuses` (`statusattr.py:18-19`). -/
def validStatuses : List String :=
  ["MESSAGES", "RECENT", "UIDNEXT", "UIDVALIDITY", "UNSEEN"]

/-- A constructed `StatusAttribute`: its `status`/`value` holds the
normalized (uppercased) attribute name. -/
structure StatusAttribute where
  status : String
deriving DecidableEq, Repr

/-- `StatusAttribute.value` (`statusattr.py:28-31`). -/
def StatusAttribute.value (a : StatusAttribute) : String := a.status

/-- `StatusAttribute.__eq__` (`statusattr.py:49-54`) against another
attribute: compares the normalized values. -/
def StatusAttribute.beqAttr (a b : StatusAttribute) : Bool :=
  a.value == b.value

/-- `StatusAttribute.__init__` (`statusattr.py:21-26`): uppercase the
argument, raise `ValueError` (modelled as `Except.error` carrying the
offending normalized value) unless it is one of the five valid statuses,
otherwise store it. -/
def StatusAttribute.make (statusArg : String) :
    Except String StatusAttribute :=
  let s := bytesUpper statusArg
  if s ∈ validStatuses then .ok { status := s } else .error s

/-- The parse error taxonomy relevant to `StatusAttribute.parse`. -/
inductive ParseError
  | invalidContent
deriving DecidableEq, Repr

/-- The decision step of `StatusAttribute.parse` (`statusattr.py:40-44`)
after the collaborator `Atom.parse` (out of scope per spec §1/§6) has
produced the atom value: construct the attribute, converting a
`ValueError` into `InvalidContent`. -/
def StatusAttribute.parseAtom (atomValue : String) :
    Except ParseError StatusAttribute :=
  match StatusAttribute.make atomValue with
  | .ok a => .ok a
  | .error _ => .error ParseError.invalidContent

/-! ### Statement-side helpers -/

/-- The MailboxState invariant of spec §3/§8: message UIDs are strictly
increasing with index and every message's UID is strictly below
`next_uid`. -/
def Inv (m : MailboxState) : Prop :=
  m.messages.Pairwise (fun a b => a.uid < b.uid) ∧
  ∀ msg ∈ m.messages, msg.uid < m.nextUid

/-- The updates that one `append_messages` call enqueues on each
registered session, given the message count before the call: an
`Exists(seq)` and a `Fetch(seq, supplied_flags)` per appended message. -/
def appendNotifications (baseLen : Nat) : List AppendMessage → List Update
  | [] => []
  | am :: rest =>
    Update.existsU (baseLen + 1) :: Update.fetchU (baseLen + 1) am.flagSet ::
      appendNotifications (baseLen + 1) rest

/-- The effect of one `append_messages` call on a registered session:
its pending queue grows by `appendNotifications` and its `updated`
signal is set. -/
def notifySession (baseLen : Nat) (msgs : List AppendMessage)
    (s : SelectedMailbox) : SelectedMailbox :=
  { s with pending := s.pending ++ appendNotifications baseLen msgs,
           updated := true }

/-- The `Fetch(seq, new_flags)` updates that one `update_flags` call
enqueues on every session other than the caller's. -/
def storeFetches (perm flagSet : List Flag) (mode : FlagOp) :
    List (Nat × Message) → List Update
  | [] => []
  | p :: rest =>
    Update.fetchU p.1 (applyFlagOp perm p.2.flags flagSet mode) ::
      storeFetches perm flagSet mode rest

/-- The effect of one `update_flags` call on a registered session other
than the caller's: its pending queue grows by the `Fetch` updates and
its `updated` signal is set whenever at least one message was
processed. -/
def storeSession (perm flagSet : List Flag) (mode : FlagOp)
    (pairs : List (Nat × Message)) (s : SelectedMailbox) : SelectedMailbox :=
  { s with pending := s.pending ++ storeFetches perm flagSet mode pairs,
           updated := s.updated || !pairs.isEmpty }

/-! ### Concrete sample states for witnesses and counterexamples -/

/-- A message with the given UID and persistent flags and opaque
payload. -/
def sampleMsg (u : Nat) (fs : List Flag) : Message :=
  { uid := u, contents := 0, internalDate := 0, flags := fs }

/-- The scenario mailbox of spec §8 item 2: UIDs 101-104 with 102 and
104 flagged `\Deleted`. -/
def c3Mailbox : MailboxState :=
  { mboxName := "INBOX", uidValidity := 1,
    messages := [sampleMsg 101 [], sampleMsg 102 [.deleted],
                 sampleMsg 103 [], sampleMsg 104 [.deleted]],
    nextUid := 105, recent := [], subscribed := false,
    permanentFlags := [.seen, .answered, .flagged, .deleted, .draft] }

/-- A selection of `c3Mailbox` with an empty pending queue. -/
def c3Session : SelectedMailbox :=
  { sid := 1, mboxName := "INBOX", readonly := false, sessionRecent := [],
    pending := [], updated := false }

/-- A one-message INBOX used for the rename-INBOX scenario. -/
def c7Inbox : MailboxState :=
  { mboxName := "INBOX", uidValidity := 7,
    messages := [sampleMsg 101 []], nextUid := 102, recent := [],
    subscribed := false, permanentFlags := [] }

/-- An empty INBOX for the delete-with-children scenario. -/
def c8Inbox : MailboxState :=
  { mboxName := "INBOX", uidValidity := 11, messages := [], nextUid := 100,
    recent := [], subscribed := false, permanentFlags := [] }

/-- Mailbox `A`, a parent mailbox. -/
def c8A : MailboxState :=
  { mboxName := "A", uidValidity := 12, messages := [], nextUid := 100,
    recent := [], subscribed := false, permanentFlags := [] }

/-- Mailbox `A.B`, an inferior hierarchical name of `A`. -/
def c8AB : MailboxState :=
  { mboxName := "A.B", uidValidity := 13, messages := [], nextUid := 100,
    recent := [], subscribed := false, permanentFlags := [] }

/-- The source mailbox of the copy scenario (spec §8 item 3): one
message with UID 101. -/
def c5Src : MailboxState :=
  { mboxName := "INBOX", uidValidity := 1,
    messages := [sampleMsg 101 [.seen]], nextUid := 102, recent := [],
    subscribed := false, permanentFlags := [.seen, .deleted] }

/-- The destination mailbox of the copy scenario: `uid_validity = 5`,
`next_uid = 10`, empty. -/
def c5Dest : MailboxState :=
  { mboxName := "Target", uidValidity := 5, messages := [], nextUid := 10,
    recent := [], subscribed := false, permanentFlags := [.seen, .deleted] }

/-- The copying session (selected on the source). -/
def c5Sel : SelectedMailbox :=
  { sid := 0, mboxName := "INBOX", readonly := false, sessionRecent := [],
    pending := [], updated := false }

/-- First session registered on the destination. -/
def c5SessA : SelectedMailbox :=
  { sid := 1, mboxName := "Target", readonly := false, sessionRecent := [],
    pending := [], updated := false }

/-- Second session registered on the destination. -/
def c5SessB : SelectedMailbox :=
  { sid := 2, mboxName := "Target", readonly := false, sessionRecent := [],
    pending := [], updated := false }

/-- A `UID` sequence set expanding to `101` (i.e. `UID COPY 101`). -/
def c5Seqs : SequenceSet :=
  { uid := true, iterFun := fun _ => [101] }

/-- A sequence-number sequence set expanding to `1`. -/
def seqSetOne : SequenceSet :=
  { uid := false, iterFun := fun _ => [1] }

/-! ## Theorems -/

/-- C2: `do_command` gating, with the spec §4.7 command classes
(disjoint; SELECT/EXAMINE themselves are `Auth`-class commands).  A
`NonAuth` command with a session present is answered
`BAD "<command>: Already authenticated."`; an `Auth` command without a
session is answered `BAD "<command>: Must authenticate first."`; a
`Select` command without a selection is answered
`BAD "<command>: Must select a mailbox first."`; in every `BAD` case
the command's handler is not invoked. -/
theorem do_command_gate_claim (hasSession hasSelected : Bool)
    (cmd : Command) :
    (hasSession = true → cmd.isNonAuth = true →
      doCommandGate hasSession hasSelected cmd =
        DoCommandResult.bad cmd.tag (cmd.command ++ ": Already authenticated.")) ∧
    (hasSession = false → cmd.isAuth = true →
      doCommandGate hasSession hasSelected cmd =
        DoCommandResult.bad cmd.tag (cmd.command ++ ": Must authenticate first.")) ∧
    (hasSelected = false → cmd.isSelect = true →
      doCommandGate hasSession hasSelected cmd =
        DoCommandResult.bad cmd.tag (cmd.command ++ ": Must select a mailbox first.")) ∧
    (∀ tag text, doCommandGate hasSession hasSelected cmd =
        DoCommandResult.bad tag text →
      ∀ nm, doCommandGate hasSession hasSelected cmd ≠
        DoCommandResult.dispatched nm) := by
  refine ⟨?_, ?_, ?_, ?_⟩
  · intro h1 h2
    simp [doCommandGate, h1, h2]
  · intro h1 h2
    simp [doCommandGate, h1, h2]
  · intro h1 h2
    have h3 : cmd.cls = CommandClass.select := by
      simpa [Command.isSelect] using h2
    simp [doCommandGate, Command.isNonAuth, Command.isAuth,
      Command.isSelect, h1, h3]
  · intro tag text h nm
    rw [h]
    simp

/-- C2 (witness): the gating rules at the concrete commands of spec §8
scenario 4 — `SELECT` (an `Auth`-class command) before login, `LOGIN`
after login — plus `FETCH` (a `Select`-class command) with and without a
session but no selection. -/
theorem do_command_gate_claim_witness :
    doCommandGate true false
        { tag := "a4", command := "LOGIN", cls := CommandClass.nonAuth } =
      DoCommandResult.bad "a4" "LOGIN: Already authenticated." ∧
    doCommandGate false false
        { tag := "a1", command := "SELECT", cls := CommandClass.auth } =
      DoCommandResult.bad "a1" "SELECT: Must authenticate first." ∧
    doCommandGate true false
        { tag := "f1", command := "FETCH", cls := CommandClass.select } =
      DoCommandResult.bad "f1" "FETCH: Must select a mailbox first." ∧
    doCommandGate false false
        { tag := "f2", command := "FETCH", cls := CommandClass.select } =
      DoCommandResult.bad "f2" "FETCH: Must select a mailbox first." := by
  refine ⟨?_, ?_, ?_, ?_⟩
  · exact (do_command_gate_claim true false _).1 rfl (by decide)
  · exact (do_command_gate_claim false false _).2.1 rfl (by decide)
  · exact (do_command_gate_claim true false _).2.2.1 rfl (by decide)
  · exact (do_command_gate_claim false false _).2.2.1 rfl (by decide)

/-- C3 (code bug, evaluated at the failing input): on the spec §8
scenario-2 mailbox (UIDs 101-104 with 102 and 104 `\Deleted`),
`expunge_mailbox` does remove the right messages (101 and 103 remain,
with their original sequence numbers recorded), but the `Expunge`
updates are delivered to the registered session in **ascending**
sequence order — `Expunge(2)` before `Expunge(4)` — because
`session.py:237` sorts `expunged.items()` ascending, contradicting the
claimed (and spec-mandated) highest-sequence-first delivery. -/
theorem expunge_fanout_ascending_at_failing_input :
    (expungeMailbox c3Mailbox c3Session [c3Session] none).1.messages.map
        Message.uid = [101, 103] ∧
    (expungeMailbox c3Mailbox c3Session [c3Session] none).2 =
      [{ c3Session with pending := [Update.expungeU 2, Update.expungeU 4],
                        updated := true }] ∧
    [Update.expungeU 2, Update.expungeU 4] ≠
      [Update.expungeU 4, Update.expungeU 2] := by
  decide

/-- C6 (code bug, evaluated at a failing input): the reference
`_mailbox_matches` accepts every name, so `do_list` for ref `""` and
filter `"INBOX"` still lists `Sent` and `Trash`, although `Sent` does
not match the pattern `INBOX` under the spec's IMAP wildcard
semantics. -/
theorem list_matching_ignores_pattern :
    mailboxMatches "Sent" "." "" "INBOX" = true ∧
    doListNames ["INBOX", "Sent", "Trash"] "." "" "INBOX" =
      ["INBOX", "Sent", "Trash"] ∧
    mailboxMatchesSpec '.' "INBOX" "Sent" = false ∧
    mailboxMatchesSpec '.' "INBOX" "INBOX" = true ∧
    mailboxMatchesSpec '.' "*" "A.B" = true ∧
    mailboxMatchesSpec '.' "%" "A.B" = false := by
  decide

/-- C7 (code bug, evaluated at the failing input): renaming `INBOX`
succeeds but simply re-binds the whole mailbox under the new name and
deletes the `INBOX` entry; afterwards `INBOX` no longer exists (and in
particular is not left as an empty mailbox), violating the claimed
RFC 3501 §6.3.5 rule and the INBOX-always-exists invariant. -/
theorem rename_inbox_removes_inbox :
    renameMailbox [("INBOX", c7Inbox)] "INBOX" "Archive" =
      Except.ok [("Archive", c7Inbox)] ∧
    mailboxesContain [("Archive", c7Inbox)] "INBOX" = false ∧
    c7Inbox.messages ≠ [] := by
  decide

/-- C8 (code bug, evaluated at the failing input): with mailboxes
`INBOX`, `A` and `A.B` extant, `delete_mailbox "A"` succeeds and removes
`A` even though the extant name `A.B` starts with `A` + separator — the
demo session never raises `MailboxHasChildren` (the handler for it at
`state.py:154-156` is dead code). -/
theorem delete_mailbox_ignores_children :
    deleteMailbox [("INBOX", c8Inbox), ("A", c8A), ("A.B", c8AB)] "A" =
      Except.ok [("INBOX", c8Inbox), ("A.B", c8AB)] ∧
    "A.B".data = "A".data ++ ".".data ++ "B".data := by
  decide

/-- C10: `StatusAttribute` accepts exactly the five attribute names
`MESSAGES`, `RECENT`, `UIDNEXT`, `UIDVALIDITY`, `UNSEEN`,
case-insensitively: the constructor succeeds iff the uppercased argument
is one of the five, the stored value is the uppercased argument, any
other byte string raises `ValueError` and makes `parse` raise
`InvalidContent` instead of returning a value, and equality compares the
normalized value. -/
theorem status_attribute_spec (s : String) :
    ((∃ a, StatusAttribute.make s = Except.ok a) ↔
      bytesUpper s ∈ validStatuses) ∧
    (∀ a, StatusAttribute.make s = Except.ok a →
      a.status = bytesUpper s) ∧
    (bytesUpper s ∉ validStatuses →
      StatusAttribute.make s = Except.error (bytesUpper s) ∧
      StatusAttribute.parseAtom s = Except.error ParseError.invalidContent) ∧
    (∀ a, StatusAttribute.parseAtom s = Except.ok a ↔
      StatusAttribute.make s = Except.ok a) ∧
    (∀ a b : StatusAttribute,
      StatusAttribute.beqAttr a b = true ↔ a.status = b.status) := by
  by_cases h : bytesUpper s ∈ validStatuses
  · refine ⟨⟨fun _ => h, fun _ => ⟨{ status := bytesUpper s },
        by simp [StatusAttribute.make, h]⟩⟩,
      ?_, fun hn => absurd h hn, ?_, ?_⟩
    · intro a ha
      simp [StatusAttribute.make, h] at ha
      rw [← ha]
    · intro a
      simp [StatusAttribute.parseAtom, StatusAttribute.make, h]
    · intro a b
      simp [StatusAttribute.beqAttr, StatusAttribute.value]
  · refine ⟨⟨?_, fun hx => absurd hx h⟩, ?_, fun _ => ?_, ?_, ?_⟩
    · rintro ⟨a, ha⟩
      simp [StatusAttribute.make, h] at ha
    · intro a ha
      simp [StatusAttribute.make, h] at ha
    · exact ⟨by simp [StatusAttribute.make, h],
        by simp [StatusAttribute.parseAtom, StatusAttribute.make, h]⟩
    · intro a
      simp [StatusAttribute.parseAtom, StatusAttribute.make, h]
    · intro a b
      simp [StatusAttribute.beqAttr, StatusAttribute.value]

/-- C10 (witness): `uidNext` is accepted with normalized value
`UIDNEXT`; `bogus` makes `parse` raise `InvalidContent`. -/
theorem status_attribute_spec_witness :
    bytesUpper "bogus" ∉ validStatuses ∧
    StatusAttribute.parseAtom "bogus" =
      Except.error ParseError.invalidContent ∧
    (∀ a, StatusAttribute.make "uidNext" = Except.ok a →
      a.status = "UIDNEXT") :=
  ⟨by decide, ((status_attribute_spec "bogus").2.2.1 (by decide)).2,
    fun a ha => by
      have h := (status_attribute_spec "uidNext").2.1 a ha
      simpa using h⟩

/-! ### Helper lemmas about the Python-set model -/

theorem mem_addToSet_self (r : List Nat) (u : Nat) : u ∈ addToSet r u := by
  unfold addToSet
  split
  · assumption
  · simp

theorem mem_addToSet_of_mem {r : List Nat} {u : Nat} (v : Nat)
    (h : u ∈ r) : u ∈ addToSet r v := by
  unfold addToSet
  split
  · exact h
  · simp [h]

/-! ### C4: append fan-out -/

theorem appendMessagesAux_nil_sessions (msgs : List AppendMessage) :
    ∀ m : MailboxState,
      (appendMessagesAux m [] msgs).2.1 = [] ∧
      (∀ u ∈ m.recent, u ∈ (appendMessagesAux m [] msgs).1.recent) ∧
      (∀ u ∈ (appendMessagesAux m [] msgs).2.2,
        u ∈ (appendMessagesAux m [] msgs).1.recent) := by
  induction msgs with
  | nil =>
    intro m
    simp [appendMessagesAux]
  | cons am rest ih =>
    intro m
    simp only [appendMessagesAux, incrementNextUid, List.isEmpty_nil,
      if_true]
    refine ⟨(ih _).1, ?_, ?_⟩
    · intro u hu
      exact (ih _).2.1 u (mem_addToSet_of_mem _ hu)
    · intro u hu
      simp only [List.mem_cons] at hu
      rcases hu with h | hu
      · exact h ▸ (ih _).2.1 _ (mem_addToSet_self _ _)
      · exact (ih _).2.2 u hu

theorem appendMessagesAux_notify (msgs : List AppendMessage) :
    msgs ≠ [] → ∀ (m : MailboxState) (sessions : List SelectedMailbox),
      sessions ≠ [] →
      (appendMessagesAux m sessions msgs).1.recent = m.recent ∧
      (appendMessagesAux m sessions msgs).2.1 =
        sessions.map (notifySession m.messages.length msgs) := by
  induction msgs with
  | nil => intro h; exact absurd rfl h
  | cons am rest ih =>
    intro _ m sessions hs
    have hse : sessions.isEmpty = false := by
      cases sessions with
      | nil => exact absurd rfl hs
      | cons a l => rfl
    simp only [appendMessagesAux, incrementNextUid, hse, Bool.false_eq_true,
      if_false]
    cases rest with
    | nil =>
      refine ⟨rfl, ?_⟩
      simp only [appendMessagesAux]
      apply List.map_congr_left
      intro s _
      simp only [notifySession, SelectedMailbox.addMessage,
        appendNotifications, List.length_append, List.length_cons,
        List.length_nil]
    | cons am2 rest2 =>
      have hrest : am2 :: rest2 ≠ [] := by simp
      have hs2 : ∀ f : SelectedMailbox → SelectedMailbox,
          sessions.map f ≠ [] := by
        intro f
        cases sessions with
        | nil => exact absurd rfl hs
        | cons a l => simp
      obtain ⟨h1, h2⟩ := ih hrest _ _ (hs2 _)
      refine ⟨h1, ?_⟩
      rw [h2, List.map_map]
      apply List.map_congr_left
      intro s _
      simp only [Function.comp, notifySession, SelectedMailbox.addMessage,
        appendNotifications, List.length_append, List.length_cons,
        List.length_nil, List.append_assoc, List.cons_append,
        List.nil_append]

/-- C4: `append_messages` fan-out.  If at least one session is
registered on the mailbox, every registered session is enqueued an
`Exists` and a `Fetch(seq, supplied_flags)` update per appended message
and has its `updated` signal set, and the mailbox's recent set is left
unchanged (no appended UID enters it); if no session is registered,
every allocated UID is added to the recent set and there is no session
to receive an update. -/
theorem append_messages_notification (m : MailboxState)
    (sessions : List SelectedMailbox) (msgs : List AppendMessage) :
    (sessions = [] →
      (appendMessages m sessions msgs).2.2 = [] ∧
      ∀ u ∈ (appendMessages m sessions msgs).1.2,
        u ∈ (appendMessages m sessions msgs).2.1.recent) ∧
    (sessions ≠ [] → msgs ≠ [] →
      (appendMessages m sessions msgs).2.1.recent = m.recent ∧
      (appendMessages m sessions msgs).2.2 =
        sessions.map (notifySession m.messages.length msgs)) := by
  constructor
  · rintro rfl
    obtain ⟨h1, _, h3⟩ := appendMessagesAux_nil_sessions msgs m
    exact ⟨h1, h3⟩
  · intro hs hm
    exact appendMessagesAux_notify msgs hm m sessions hs

/-- C4 (witness): the spec §8 scenario-1 shape.  Appending one message
to a 4-message mailbox with one registered session enqueues
`Exists(5)`/`Fetch(5, flags)` on it and leaves the recent set alone;
appending to the same mailbox with no registered session puts the new
UID into the recent set. -/
theorem append_messages_notification_witness :
    (appendMessages c3Mailbox [c3Session]
        [⟨7, [Flag.seen], 0⟩]).2.2 =
      [{ c3Session with
           pending := [Update.existsU 5, Update.fetchU 5 [Flag.seen]],
           updated := true }] ∧
    (appendMessages c3Mailbox [c3Session] [⟨7, [Flag.seen], 0⟩]).2.1.recent
      = c3Mailbox.recent ∧
    105 ∈ (appendMessages c3Mailbox [] [⟨7, [Flag.seen], 0⟩]).2.1.recent := by
  refine ⟨?_, ?_, ?_⟩
  · have h := ((append_messages_notification c3Mailbox [c3Session]
      [⟨7, [Flag.seen], 0⟩]).2 (by decide) (by decide)).2
    rw [h]
    decide
  · exact ((append_messages_notification c3Mailbox [c3Session]
      [⟨7, [Flag.seen], 0⟩]).2 (by decide) (by decide)).1
  · refine ((append_messages_notification c3Mailbox []
      [⟨7, [Flag.seen], 0⟩]).1 rfl).2 105 ?_
    decide

/-! ### C9: STORE fan-out skips the caller -/

theorem updateFlagsAux_sessions (perm flagSet : List Flag) (mode : FlagOp)
    (sel : SelectedMailbox) (pairs : List (Nat × Message)) :
    ∀ (mbx : MailboxState) (sessions : List SelectedMailbox),
      (updateFlagsAux perm flagSet mode sel mbx sessions pairs).2.1 =
        sessions.map (fun s =>
          if s.sid = sel.sid then s
          else storeSession perm flagSet mode pairs s) := by
  induction pairs with
  | nil =>
    intro mbx sessions
    have hpt : ∀ s : SelectedMailbox,
        (if s.sid = sel.sid then s
          else storeSession perm flagSet mode [] s) = s := by
      intro s
      by_cases h : s.sid = sel.sid
      · simp [h]
      · simp [h, storeSession, storeFetches]
    calc (updateFlagsAux perm flagSet mode sel mbx sessions []).2.1
        = sessions := rfl
      _ = sessions.map (fun s =>
            if s.sid = sel.sid then s
            else storeSession perm flagSet mode [] s) := by
          rw [List.map_congr_left (fun a _ => hpt a)]
          simp
  | cons p rest ih =>
    intro mbx sessions
    simp only [updateFlagsAux]
    rw [ih, List.map_map]
    apply List.map_congr_left
    intro s _
    by_cases h : s.sid = sel.sid
    · simp [Function.comp, h]
    · simp [Function.comp, h, SelectedMailbox.addFetch, storeSession,
        storeFetches, List.append_assoc]

/-- C9: `update_flags` fan-out.  Each registered session other than the
caller's selection `sel` is enqueued one `Fetch(seq, new_flags)` update
per processed message and has its `updated` signal set; the caller's own
selection is left untouched — it never observes its own STORE mutation
as an unsolicited update. -/
theorem update_flags_skips_caller (mbx : MailboxState)
    (sel : SelectedMailbox) (sessions : List SelectedMailbox)
    (seqs : SequenceSet) (flagSet : List Flag) (mode : FlagOp) :
    (updateFlags mbx sel sessions seqs flagSet mode).2.1 =
      sessions.map (fun s =>
        if s.sid = sel.sid then s
        else storeSession mbx.permanentFlags flagSet mode
          (iterMessages mbx seqs) s) :=
  updateFlagsAux_sessions mbx.permanentFlags flagSet mode sel
    (iterMessages mbx seqs) mbx sessions

/-! ### C1: UID invariants -/

theorem inv_push {m m2 : MailboxState} {msg : Message} (h : Inv m)
    (huid : msg.uid = m.nextUid)
    (hmsg : m2.messages = m.messages ++ [msg])
    (hnext : m2.nextUid = m.nextUid + 1) : Inv m2 := by
  obtain ⟨hp, hb⟩ := h
  constructor
  · rw [hmsg, List.pairwise_append]
    refine ⟨hp, List.pairwise_singleton _ _, ?_⟩
    intro a ha b hb2
    simp only [List.mem_singleton] at hb2
    subst hb2
    rw [huid]
    exact hb a ha
  · intro x hx
    rw [hmsg] at hx
    rw [hnext]
    rcases List.mem_append.mp hx with hx | hx
    · exact Nat.lt_succ_of_lt (hb x hx)
    · simp only [List.mem_singleton] at hx
      subst hx
      rw [huid]
      exact Nat.lt_succ_self _

theorem inv_of_eq {m m2 : MailboxState} (h : Inv m)
    (hmsg : m2.messages = m.messages) (hnext : m2.nextUid = m.nextUid) :
    Inv m2 := by
  obtain ⟨hp, hb⟩ := h
  constructor
  · rw [hmsg]
    exact hp
  · intro x hx
    rw [hmsg] at hx
    rw [hnext]
    exact hb x hx

theorem appendMessagesAux_inv1 (msgs : List AppendMessage) :
    ∀ (m : MailboxState) (sessions : List SelectedMailbox), Inv m →
      Inv (appendMessagesAux m sessions msgs).1 := by
  induction msgs with
  | nil =>
    intro m sessions h
    exact h
  | cons am rest ih =>
    intro m sessions h
    simp only [appendMessagesAux, incrementNextUid]
    split
    · apply ih
      exact inv_push h rfl rfl rfl
    · apply ih
      exact inv_push h rfl rfl rfl

theorem appendMessagesAux_nextUid (msgs : List AppendMessage) :
    ∀ (m : MailboxState) (sessions : List SelectedMailbox),
      (appendMessagesAux m sessions msgs).1.nextUid =
        m.nextUid + msgs.length := by
  induction msgs with
  | nil =>
    intro m sessions
    rfl
  | cons am rest ih =>
    intro m sessions
    simp only [appendMessagesAux, incrementNextUid]
    split
    · dsimp only
      rw [ih]
      simp only [List.length_cons]
      omega
    · dsimp only
      rw [ih]
      simp only [List.length_cons]
      omega

theorem copyLoop_inv1 (sel : SelectedMailbox) (pairs : List (Nat × Message)) :
    ∀ dest : MailboxState, Inv dest → Inv (copyLoop sel dest pairs).1 := by
  induction pairs with
  | nil =>
    intro dest h
    exact h
  | cons p rest ih =>
    intro dest h
    simp only [copyLoop, incrementNextUid]
    apply ih
    exact inv_push h rfl rfl rfl

theorem copyLoop_nextUid (sel : SelectedMailbox)
    (pairs : List (Nat × Message)) :
    ∀ dest : MailboxState,
      (copyLoop sel dest pairs).1.nextUid = dest.nextUid + pairs.length := by
  induction pairs with
  | nil =>
    intro dest
    rfl
  | cons p rest ih =>
    intro dest
    simp only [copyLoop, incrementNextUid]
    rw [ih]
    simp only [List.length_cons]
    omega

theorem expungeLoop_sublist (snapshot : List Message)
    (sel : SelectedMailbox) (idxs : List Nat) :
    ∀ (live : List Message) (exp : List (Nat × Nat)),
      (expungeLoop snapshot sel idxs live exp).1.Sublist live := by
  induction idxs with
  | nil =>
    intro live exp
    exact List.Sublist.refl _
  | cons idx rest ih =>
    intro live exp
    simp only [expungeLoop]
    cases hget : snapshot.get? idx with
    | none => exact ih live exp
    | some msg =>
      simp only []
      split
      · exact List.Sublist.trans (ih _ _) (List.eraseIdx_sublist _ _)
      · exact ih live exp

theorem expungeMailbox_inv (mbx : MailboxState) (sel : SelectedMailbox)
    (sessions : List SelectedMailbox) (uidSet : Option SequenceSet)
    (h : Inv mbx) :
    Inv (expungeMailbox mbx sel sessions uidSet).1 ∧
    (expungeMailbox mbx sel sessions uidSet).1.nextUid = mbx.nextUid := by
  have hsub : ∀ idxs : List Nat,
      (expungeLoop mbx.messages sel idxs mbx.messages []).1.Sublist
        mbx.messages :=
    fun idxs => expungeLoop_sublist mbx.messages sel idxs mbx.messages []
  simp only [expungeMailbox]
  split
  · constructor
    · exact ⟨(h.1.sublist (hsub _)), fun x hx => h.2 x ((hsub _).subset hx)⟩
    · rfl
  · constructor
    · exact ⟨(h.1.sublist (hsub _)), fun x hx => h.2 x ((hsub _).subset hx)⟩
    · rfl

/-- C1: the per-mailbox UID invariants.  If a mailbox satisfies the
invariant (UIDs strictly increasing with index, every UID below
`next_uid`), then it still satisfies it after `append_messages`, after
being the destination of `copy_messages`, and after `expunge_mailbox`;
moreover `next_uid` never decreases — `append_messages` and
`copy_messages` only increment it (via `_increment_next_uid`) and
`expunge_mailbox` leaves it exactly unchanged. -/
theorem uid_invariant_preserved (m : MailboxState) (hm : Inv m)
    (sessions destSessions : List SelectedMailbox)
    (msgs : List AppendMessage) (src : MailboxState)
    (sel : SelectedMailbox) (seqs : SequenceSet)
    (uidSet : Option SequenceSet) :
    (Inv (appendMessages m sessions msgs).2.1 ∧
      m.nextUid ≤ (appendMessages m sessions msgs).2.1.nextUid) ∧
    (Inv (copyMessages src sel seqs m destSessions).2.1 ∧
      m.nextUid ≤ (copyMessages src sel seqs m destSessions).2.1.nextUid) ∧
    (Inv (expungeMailbox m sel sessions uidSet).1 ∧
      (expungeMailbox m sel sessions uidSet).1.nextUid = m.nextUid) := by
  refine ⟨?_, ?_, expungeMailbox_inv m sel sessions uidSet hm⟩
  · constructor
    · exact appendMessagesAux_inv1 msgs m sessions hm
    · show m.nextUid ≤ (appendMessagesAux m sessions msgs).1.nextUid
      rw [appendMessagesAux_nextUid msgs m sessions]
      exact Nat.le_add_right _ _
  · constructor
    · exact inv_of_eq (copyLoop_inv1 sel (iterMessages src seqs) m hm) rfl rfl
    · show m.nextUid ≤ (copyLoop sel m (iterMessages src seqs)).1.nextUid
      rw [copyLoop_nextUid sel (iterMessages src seqs) m]
      exact Nat.le_add_right _ _

/-- C1 (witness): the invariants at the spec §8 scenario-2 mailbox,
through an expunge, an append and a copy. -/
theorem uid_invariant_preserved_witness :
    Inv c3Mailbox ∧
    Inv (expungeMailbox c3Mailbox c3Session [c3Session] none).1 ∧
    (expungeMailbox c3Mailbox c3Session [c3Session] none).1.nextUid =
      c3Mailbox.nextUid ∧
    Inv (appendMessages c3Mailbox [c3Session]
      [⟨7, [Flag.seen], 0⟩]).2.1 ∧
    c3Mailbox.nextUid ≤ (appendMessages c3Mailbox [c3Session]
      [⟨7, [Flag.seen], 0⟩]).2.1.nextUid := by
  have hm : Inv c3Mailbox := by constructor <;> decide
  have h := uid_invariant_preserved c3Mailbox hm [c3Session] [c3Session]
    [⟨7, [Flag.seen], 0⟩] c5Src c3Session seqSetOne none
  exact ⟨hm, h.2.2.1, h.2.2.2, h.1.1, h.1.2⟩

/-! ### C5: copy fan-out and the recent set -/

theorem addToSet_nodup {r : List Nat} (h : r.Nodup) (u : Nat) :
    (addToSet r u).Nodup := by
  unfold addToSet
  split
  · exact h
  · next hmem =>
    simp [List.nodup_append, h, hmem]

theorem mem_foldl_addToSet (l : List Nat) :
    ∀ (r : List Nat) (u : Nat),
      u ∈ l.foldl addToSet r ↔ u ∈ r ∨ u ∈ l := by
  induction l with
  | nil =>
    intro r u
    simp
  | cons a rest ih =>
    intro r u
    rw [List.foldl_cons, ih]
    constructor
    · rintro (h | h)
      · unfold addToSet at h
        split at h
        · exact Or.inl h
        · rcases List.mem_append.mp h with h | h
          · exact Or.inl h
          · simp only [List.mem_singleton] at h
            subst h
            simp
      · simp [h]
    · rintro (h | h)
      · exact Or.inl (mem_addToSet_of_mem _ h)
      · rcases List.mem_cons.mp h with h | h
        · subst h
          exact Or.inl (mem_addToSet_self _ _)
        · exact Or.inr h

theorem foldl_addToSet_nodup (l : List Nat) :
    ∀ r : List Nat, r.Nodup → (l.foldl addToSet r).Nodup := by
  induction l with
  | nil =>
    intro r h
    exact h
  | cons a rest ih =>
    intro r h
    rw [List.foldl_cons]
    exact ih _ (addToSet_nodup h a)

theorem addFetch_sessionRecent (s : SelectedMailbox) (seq : Nat)
    (flags : List Flag) :
    (s.addFetch seq flags).sessionRecent = s.sessionRecent := rfl

theorem mem_addRecent_self (s : SelectedMailbox) (u : Nat) :
    u ∈ (s.addRecent u).sessionRecent := by
  unfold SelectedMailbox.addRecent
  split
  · assumption
  · simp

theorem mem_addRecent_of_mem (s : SelectedMailbox) (v : Nat) {u : Nat}
    (h : u ∈ s.sessionRecent) : u ∈ (s.addRecent v).sessionRecent := by
  unfold SelectedMailbox.addRecent
  split
  · exact h
  · simp [h]

theorem claimLoop_mono (results : List (Nat × Message)) :
    ∀ (recent : List Nat) (s : SelectedMailbox) (v : Nat),
      v ∈ s.sessionRecent →
      v ∈ (claimLoop recent s results).2.sessionRecent := by
  induction results with
  | nil =>
    intro recent s v hv
    exact hv
  | cons r rest ih =>
    intro recent s v hv
    by_cases h : r.2.uid ∈ recent
    · simp only [claimLoop, if_pos h]
      exact ih _ _ v (mem_addRecent_of_mem s _ hv)
    · simp only [claimLoop, if_neg h]
      exact ih _ _ v hv

theorem claimLoop_claims (results : List (Nat × Message)) :
    ∀ (recent : List Nat) (s : SelectedMailbox),
      (results.map (fun r => r.2.uid)).Nodup →
      (∀ u ∈ results.map (fun r => r.2.uid), u ∈ recent) →
      ∀ u ∈ results.map (fun r => r.2.uid),
        u ∈ (claimLoop recent s results).2.sessionRecent := by
  induction results with
  | nil =>
    intro recent s _ _ u hu
    simp at hu
  | cons r rest ih =>
    intro recent s hnd hall u hu
    simp only [List.map_cons] at hnd hall hu
    have hr : r.2.uid ∈ recent := hall _ (List.mem_cons_self _ _)
    simp only [claimLoop, if_pos hr]
    simp only [List.nodup_cons] at hnd
    rcases List.mem_cons.mp hu with hu | hu
    · rw [hu]
      exact claimLoop_mono rest _ _ _ (mem_addRecent_self s _)
    · refine ih _ _ hnd.2 ?_ u hu
      intro w hw
      have hwne : w ≠ r.2.uid := fun he => hnd.1 (he ▸ hw)
      exact (List.mem_erase_of_ne hwne).mpr
        (hall w (List.mem_cons_of_mem _ hw))

theorem claimLoop_recent (results : List (Nat × Message)) :
    ∀ (recent : List Nat) (s : SelectedMailbox), recent.Nodup →
      (claimLoop recent s results).1.Nodup ∧
      ∀ v, v ∈ (claimLoop recent s results).1 ↔
        (v ∈ recent ∧ v ∉ results.map (fun r => r.2.uid)) := by
  induction results with
  | nil =>
    intro recent s hnd
    refine ⟨hnd, fun v => ?_⟩
    simp [claimLoop]
  | cons r rest ih =>
    intro recent s hnd
    by_cases h : r.2.uid ∈ recent
    · simp only [claimLoop, if_pos h]
      obtain ⟨ihnd, ihiff⟩ := ih (recent.erase r.2.uid) _ (hnd.erase _)
      refine ⟨ihnd, fun v => ?_⟩
      rw [ihiff v, List.Nodup.mem_erase_iff hnd]
      simp only [List.map_cons, List.mem_cons, not_or]
      tauto
    · simp only [claimLoop, if_neg h]
      obtain ⟨ihnd, ihiff⟩ := ih recent _ hnd
      refine ⟨ihnd, fun v => ?_⟩
      rw [ihiff v]
      simp only [List.map_cons, List.mem_cons, not_or]
      have hvne : ∀ v : Nat, v ∈ recent → v ≠ r.2.uid :=
        fun v hv he => h (he ▸ hv)
      tauto

theorem claimLoop_no_claims (results : List (Nat × Message)) :
    ∀ (recent : List Nat) (s : SelectedMailbox),
      (∀ u ∈ results.map (fun r => r.2.uid), u ∉ recent) →
      (claimLoop recent s results).1 = recent ∧
      (claimLoop recent s results).2.sessionRecent = s.sessionRecent := by
  induction results with
  | nil =>
    intro recent s _
    exact ⟨rfl, rfl⟩
  | cons r rest ih =>
    intro recent s hnone
    simp only [List.map_cons] at hnone
    have h : r.2.uid ∉ recent := hnone _ (List.mem_cons_self _ _)
    simp only [claimLoop, if_neg h]
    refine ih _ _ ?_
    intro u hu
    exact hnone u (List.mem_cons_of_mem _ hu)

theorem fanoutLoop_no_claims (results : List (Nat × Message)) :
    ∀ (recent : List Nat) (sessions : List SelectedMailbox),
      (∀ u ∈ results.map (fun r => r.2.uid), u ∉ recent) →
      (fanoutLoop results recent sessions).1 = recent ∧
      (fanoutLoop results recent sessions).2.map
          SelectedMailbox.sessionRecent =
        sessions.map SelectedMailbox.sessionRecent := by
  intro recent sessions
  induction sessions with
  | nil =>
    intro _
    exact ⟨rfl, rfl⟩
  | cons s rest ih =>
    intro hnone
    obtain ⟨e1, e2⟩ := claimLoop_no_claims results recent s hnone
    obtain ⟨f1, f2⟩ := ih hnone
    simp only [fanoutLoop]
    rw [e1]
    refine ⟨f1, ?_⟩
    simp only [List.map_cons, f2, e2]

theorem copyLoop_spec2 (sel : SelectedMailbox)
    (pairs : List (Nat × Message)) :
    ∀ dest : MailboxState,
      (copyLoop sel dest pairs).2.1.map (fun r => r.2.uid) =
        List.range' dest.nextUid pairs.length ∧
      (copyLoop sel dest pairs).2.2 = pairs.map (fun p => p.2.uid) ∧
      (copyLoop sel dest pairs).1.recent =
        (List.range' dest.nextUid pairs.length).foldl addToSet
          dest.recent := by
  induction pairs with
  | nil =>
    intro dest
    exact ⟨rfl, rfl, rfl⟩
  | cons p rest ih =>
    intro dest
    simp only [copyLoop, incrementNextUid]
    obtain ⟨h1, h2, h3⟩ := ih _
    refine ⟨?_, ?_, ?_⟩
    · simp only [List.map_cons, List.length_cons]
      rw [List.range'_succ]
      congr 1
    · simp only [List.map_cons]
      congr 1
    · simp only [List.length_cons]
      rw [List.range'_succ, List.foldl_cons]
      exact h3

/-- C5 (counterexample): with two sessions registered on the
destination, only the first iterated session claims `\Recent` for the
copied UID — the second session's overlay stays empty — refuting the
claim that *each* registered destination session claims `\Recent` for
each copied UID.  (`session.py:266-268` removes the UID from the
destination's recent set as soon as the first session claims it.) -/
theorem copy_messages_second_session_counterexample :
    (copyMessages c5Src c5Sel c5Seqs c5Dest [c5SessA, c5SessB]).2.2.map
        SelectedMailbox.sessionRecent = [[10], []] ∧
    (copyMessages c5Src c5Sel c5Seqs c5Dest [c5SessA, c5SessB]).1 =
      some (5, [101], [10]) := by
  decide

/-- C5 (amended): `copy_messages` into destination `dest` whose recent
set is duplicate-free.  When at least one message is copied the return
value is `CopyUid(dest.uid_validity, source_uids, dest_uids)` (`None`
when no message matched); each copied UID ends up in the destination's
recent set iff no session is registered on the destination; when
sessions are registered, the **first** iterated session claims
`\Recent` for every copied UID in its overlay and the remaining
sessions' overlays are unchanged (they claim nothing). -/
theorem copy_messages_recent_amended (src : MailboxState)
    (sel : SelectedMailbox) (seqs : SequenceSet) (dest : MailboxState)
    (destSessions : List SelectedMailbox) (hnd : dest.recent.Nodup) :
    (iterMessages src seqs = [] →
      (copyMessages src sel seqs dest destSessions).1 = none) ∧
    (iterMessages src seqs ≠ [] →
      (copyMessages src sel seqs dest destSessions).1 =
        some (dest.uidValidity,
          (iterMessages src seqs).map (fun p => p.2.uid),
          List.range' dest.nextUid (iterMessages src seqs).length)) ∧
    (destSessions = [] →
      ∀ u ∈ List.range' dest.nextUid (iterMessages src seqs).length,
        u ∈ (copyMessages src sel seqs dest destSessions).2.1.recent) ∧
    (destSessions ≠ [] →
      (∀ u ∈ List.range' dest.nextUid (iterMessages src seqs).length,
        u ∉ (copyMessages src sel seqs dest destSessions).2.1.recent) ∧
      (∀ s' ∈ (copyMessages src sel seqs dest destSessions).2.2.take 1,
        ∀ u ∈ List.range' dest.nextUid (iterMessages src seqs).length,
          u ∈ s'.sessionRecent) ∧
      ((copyMessages src sel seqs dest destSessions).2.2.drop 1).map
          SelectedMailbox.sessionRecent =
        (destSessions.drop 1).map SelectedMailbox.sessionRecent) := by
  obtain ⟨huids, hsrc, hrecent⟩ :=
    copyLoop_spec2 sel (iterMessages src seqs) dest
  refine ⟨?_, ?_, ?_, ?_⟩
  · intro hp
    simp only [copyMessages, hsrc, hp]
    simp [copyLoop]
  · intro hp
    simp only [copyMessages, hsrc, huids]
    have h1 : ((iterMessages src seqs).map (fun p => p.2.uid)).isEmpty
        = false := by
      cases hiter : iterMessages src seqs with
      | nil => exact absurd hiter hp
      | cons a l => rfl
    have h2 : (List.range' dest.nextUid
        (iterMessages src seqs).length).isEmpty = false := by
      cases hiter : iterMessages src seqs with
      | nil => exact absurd hiter hp
      | cons a l => rfl
    simp [h1, h2]
  · rintro rfl u hu
    simp only [copyMessages, fanoutLoop]
    rw [hrecent]
    exact (mem_foldl_addToSet _ _ _).mpr (Or.inr hu)
  · intro hd
    obtain ⟨s1, rest, rfl⟩ : ∃ s1 rest, destSessions = s1 :: rest := by
      cases destSessions with
      | nil => exact absurd rfl hd
      | cons a l => exact ⟨a, l, rfl⟩
    have hndrec :
        (copyLoop sel dest (iterMessages src seqs)).1.recent.Nodup := by
      rw [hrecent]
      exact foldl_addToSet_nodup _ _ hnd
    have hnduids :
        ((copyLoop sel dest (iterMessages src seqs)).2.1.map
          (fun r => r.2.uid)).Nodup := by
      rw [huids]
      exact List.nodup_range' _ _ 1 (by omega)
    have hall : ∀ u ∈ (copyLoop sel dest (iterMessages src seqs)).2.1.map
        (fun r => r.2.uid),
        u ∈ (copyLoop sel dest (iterMessages src seqs)).1.recent := by
      intro u hu
      rw [huids] at hu
      rw [hrecent]
      exact (mem_foldl_addToSet _ _ _).mpr (Or.inr hu)
    obtain ⟨hstepnd, hstepiff⟩ :=
      claimLoop_recent (copyLoop sel dest (iterMessages src seqs)).2.1
        (copyLoop sel dest (iterMessages src seqs)).1.recent s1 hndrec
    have hnone : ∀ u ∈ (copyLoop sel dest (iterMessages src seqs)).2.1.map
        (fun r => r.2.uid),
        u ∉ (claimLoop (copyLoop sel dest (iterMessages src seqs)).1.recent
          s1 (copyLoop sel dest (iterMessages src seqs)).2.1).1 := by
      intro u hu hmem
      exact ((hstepiff u).mp hmem).2 hu
    obtain ⟨hf1, hf2⟩ :=
      fanoutLoop_no_claims (copyLoop sel dest (iterMessages src seqs)).2.1
        (claimLoop (copyLoop sel dest (iterMessages src seqs)).1.recent s1
          (copyLoop sel dest (iterMessages src seqs)).2.1).1 rest hnone
    refine ⟨?_, ?_, ?_⟩
    · intro u hu
      simp only [copyMessages, fanoutLoop]
      rw [hf1]
      intro hmem
      exact ((hstepiff u).mp hmem).2 (by rw [huids]; exact hu)
    · intro s' hs' u hu
      simp only [copyMessages, fanoutLoop, List.take_succ_cons,
        List.take_zero, List.mem_singleton] at hs'
      rw [hs']
      exact claimLoop_claims _ _ _ hnduids hall u (by rw [huids]; exact hu)
    · simp only [copyMessages, fanoutLoop, List.drop_succ_cons,
        List.drop_zero]
      exact hf2

/-- C5 (witness): the amended statement at the two-session scenario —
UID 10 is claimed by the first destination session, the second session's
overlay stays unchanged, the recent set ends up without 10, and
`CopyUid(5, [101], [10])` is returned. -/
theorem copy_messages_recent_amended_witness :
    (copyMessages c5Src c5Sel c5Seqs c5Dest [c5SessA, c5SessB]).1 =
      some (5, [101], [10]) ∧
    10 ∉ (copyMessages c5Src c5Sel c5Seqs c5Dest
      [c5SessA, c5SessB]).2.1.recent ∧
    (∀ s' ∈ (copyMessages c5Src c5Sel c5Seqs c5Dest
        [c5SessA, c5SessB]).2.2.take 1, 10 ∈ s'.sessionRecent) := by
  have h := copy_messages_recent_amended c5Src c5Sel c5Seqs c5Dest
    [c5SessA, c5SessB] (by decide)
  refine ⟨?_, ?_, ?_⟩
  · have h2 := h.2.1 (by decide)
    rw [h2]
    decide
  · exact (h.2.2.2 (by decide)).1 10 (by decide)
  · intro s' hs'
    exact (h.2.2.2 (by decide)).2.1 s' hs' 10 (by decide)

end Pymap
